import Mathlib

/-!
Verification of the swarmdon checkin relay engine.

Shallow embedding of the Rust sources (src/swarm.rs, src/model.rs,
src/routes.rs, src/state.rs).  External HTTP calls (Swarm detail fetch,
Mastodon post) are modelled as environment parameters; the functions
themselves are translated directly from the source.
-/

namespace Swarmdon

/-- Rust `str::trim_end_matches(pat)` on character lists, phrased on the
reversed string: repeatedly remove the prefix `pat` while it is present.
Fuel-indexed structural recursion (fuel = length suffices since each
round removes at least one character for a non-empty pattern). -/
def stripPrefixRepFuel (pat : List Char) : Nat → List Char → List Char
  | 0, s => s
  | Nat.succ n, s =>
    if pat ≠ [] ∧ pat.isPrefixOf s then stripPrefixRepFuel pat n (s.drop pat.length)
    else s

/-- Rust `str::trim_end_matches(pat)`: repeatedly strip the suffix `pat`. -/
def trimEndMatches (s pat : List Char) : List Char :=
  (stripPrefixRepFuel pat.reverse s.length s.reverse).reverse

/-- Rust `str::trim`: remove whitespace from both ends. -/
def rustTrim (s : List Char) : List Char :=
  ((s.dropWhile Char.isWhitespace).reverse.dropWhile Char.isWhitespace).reverse

/-- src/swarm.rs `SwarmUser`. -/
structure SwarmUser where
  id : String
  first_name : String
  last_name : String
  handle : String
deriving DecidableEq, Repr

/-- src/swarm.rs `SwarmLocation`. -/
structure SwarmLocation where
  country : Option String
  city : Option String
  state : Option String
deriving DecidableEq, Repr

/-- src/swarm.rs `SwarmLocation::to_string` (lines 158-171). -/
def SwarmLocation.toDisplay (l : SwarmLocation) : Option String :=
  match l.city, l.state, l.country with
  | some city, some state, _ => some (city ++ ", " ++ state)
  | none, some state, some country => some (state ++ ", " ++ country)
  | none, none, some country => some country
  | _, _, _ => none

/-- src/swarm.rs `SwarmVenue`. -/
structure SwarmVenue where
  id : String
  name : String
  location : SwarmLocation
deriving DecidableEq, Repr

/-- src/swarm.rs `SwarmCheckin` (the `private` and `with` fields keep the
source names via guillemets since they are Lean keywords). -/
structure SwarmCheckin where
  id : String
  type : String
  «private» : Option Bool
  shout : Option String
  user : Option SwarmUser
  venue : SwarmVenue
  «with» : List SwarmUser
deriving DecidableEq, Repr

/-- The friends map (`HashMap<String, String>` read from the friends-map
file): modelled as an association list with unique keys, looked up with
`List.lookup`. -/
abbrev FriendsMap := List (String × String)

/-- src/swarm.rs `get_shout` (lines 207-245): rewrite the "with X, Y"
suffix of a shout into destination mentions, or signal skip (`none`). -/
def get_shout (checkin : SwarmCheckin) (friends_map : FriendsMap) : Option String :=
  let shout := checkin.shout
  if checkin.«with».isEmpty then shout
  else
    match shout with
    | none => none
    | some shout =>
      let names := String.intercalate ", " (checkin.«with».map (fun user => user.first_name))
      let with_names := "with " ++ names
      let stripped := rustTrim (trimEndMatches shout.data with_names.data)
      if stripped.isEmpty then none
      else
        let names := String.intercalate ", " (checkin.«with».map (fun user =>
          match friends_map.lookup user.handle with
          | some mastodon_id => "@" ++ mastodon_id
          | none => user.first_name))
        some (String.mk stripped ++ " with " ++ names)

/-- src/swarm.rs `get_latest_checkins` (lines 123-129): the pure part, the
private-event filter applied to the fetched page. -/
def latest_checkins_filter (checkins : List SwarmCheckin) : List SwarmCheckin :=
  checkins.filter (fun c => !(c.«private».getD false))

/-- The dedup/ordering engine: src/state.rs `take_while` on the fetched
page (line 155) composed with the `checkins.reverse()` before dispatch
(line 193). -/
def select_new (last_checkin : String) (checkins : List SwarmCheckin) : List SwarmCheckin :=
  (checkins.takeWhile (fun c => c.id ≠ last_checkin)).reverse

/-- src/model.rs `User` (only the fields the relay engine reads). -/
structure User where
  swarm_id : String
  swarm_access_token : String
deriving DecidableEq, Repr

/-- Environment for the push/post paths: the outcomes of the external
calls made by src/routes.rs `post_swarm_push` and src/model.rs
`post_checkin`.  `checkin_details` is the Swarm detail fetch (`none` =
fetch failed, `some url` = the resolved `checkinShortUrl`); `post_ok` is
the outcome of the Mastodon `new_status` call (its failure is only
logged by the code). -/
structure PushEnv where
  swarm_push_secret : String
  swarm_mapping : String → Option String
  get_user : String → Option User
  checkin_details : String → Option String
  post_ok : Bool

/-- src/model.rs `post_checkin` (lines 159-203).  Returns the Rust
`Result<()>` together with the list of destination post calls issued
(the texts passed to `new_status`).  A failed detail fetch and an absent
shout both return `Ok` with no post; a failed `new_status` is logged only,
so the post call is still issued and the result is still `Ok`. -/
def post_checkin (env : PushEnv) (checkin : SwarmCheckin) (friends_map : FriendsMap) :
    Except String Unit × List String :=
  let country :=
    match checkin.venue.location.toDisplay with
    | some c => " in " ++ c
    | none => ""
  match env.checkin_details checkin.id with
  | none => (Except.ok (), [])
  | some url =>
    match get_shout checkin friends_map with
    | none => (Except.ok (), [])
    | some shout =>
      (Except.ok (), [shout ++ " (@ " ++ checkin.venue.name ++ country ++ ") " ++ url])

/-- Observable outcome of one push webhook request: the HTTP-level
`Result<(), String>`, the destination post calls issued, and the
watermark update performed (user key, checkin id), if any. -/
structure PushOutcome where
  response : Except String Unit
  posts : List String
  watermark : Option (String × String)
deriving Repr

/-- src/routes.rs `post_swarm_push` (lines 261-302).  `parsed` is the
serde result of parsing the form's `checkin` JSON string (`none` =
unparsable payload). -/
def post_swarm_push (env : PushEnv) (secret : String) (parsed : Option SwarmCheckin)
    (friends_map : FriendsMap) : PushOutcome :=
  if secret ≠ env.swarm_push_secret then ⟨Except.ok (), [], none⟩
  else
    match parsed with
    | none => ⟨Except.ok (), [], none⟩
    | some checkin =>
      if checkin.«private».getD false then ⟨Except.ok (), [], none⟩
      else
        match checkin.user with
        | none => ⟨Except.ok (), [], none⟩
        | some user =>
          match env.swarm_mapping user.id with
          | none => ⟨Except.ok (), [], none⟩
          | some user_id =>
            match env.get_user user_id with
            | none => ⟨Except.ok (), [], none⟩
            | some _u =>
              match post_checkin env checkin friends_map with
              | (Except.error _, posts) => ⟨Except.ok (), posts, none⟩
              | (Except.ok (), posts) => ⟨Except.ok (), posts, some (user_id, checkin.id)⟩

/-- Environment for one poll iteration (src/state.rs
`start_polling_task`): per-account database user lookup (`?` plus
`ok_or_else` flatten both the store error and the not-found case into the
task's `Err`) and per-account `get_latest_checkins` fetch result. -/
structure PollEnv where
  get_user : String → Except String User
  fetch_checkins : String → Except String (List SwarmCheckin)

/-- The per-account fetch future spawned by the poll loop (src/state.rs
lines 140-158): resolve the user, fetch the latest checkins, cut at the
watermark with `take_while`. -/
def poll_fetch_one (env : PollEnv) (id last_checkin : String) :
    Except String (String × List SwarmCheckin) := do
  let _user ← env.get_user id
  let checkins ← env.fetch_checkins id
  pure (id, checkins.takeWhile (fun c => c.id ≠ last_checkin))

/-- Rust's `collect::<Result<_, _>>()` over the joined task results
(src/state.rs line 165): the first error aborts the whole collection. -/
def collect_results : List (Except String α) → Except String (List α)
  | [] => Except.ok []
  | Except.error e :: _ => Except.error e
  | Except.ok a :: rest => (collect_results rest).map (fun l => a :: l)

/-- One iteration of the poll loop (src/state.rs lines 126-209), returning
the accounts dispatched this iteration, each with its new checkins in
oldest-first order.  On a collection error the code logs and `continue`s:
nothing is dispatched.  In the dispatch phase the code re-reads each user
from the database and skips the account when that lookup fails. -/
def poll_iteration (env : PollEnv) (watermarks : List (String × String)) :
    List (String × List SwarmCheckin) :=
  match collect_results (watermarks.map (fun p => poll_fetch_one env p.1 p.2)) with
  | Except.error _ => []
  | Except.ok results =>
    (results.filter (fun p => !p.2.isEmpty)).filterMap (fun p =>
      match env.get_user p.1 with
      | Except.error _ => none
      | Except.ok _ => some (p.1, p.2.reverse))

/-- The in-memory `AppState` fields touched by the watermark updater
(src/state.rs).  `last_checkin` is `None` when polling is disabled; the
map under the mutex is modelled as a lookup function. -/
structure AppStateM where
  swarm_push_secret : String
  friends_map : FriendsMap
  last_checkin : Option (String → Option String)

/-- src/state.rs `update_last_checkin` (lines 110-115): insert into the
in-memory watermark map when polling is enabled, do nothing otherwise. -/
def update_last_checkin (st : AppStateM) (user_id checkin_id : String) : AppStateM :=
  match st.last_checkin with
  | none => st
  | some m =>
    { st with last_checkin := some (fun k => if k = user_id then some checkin_id else m k) }

/-- The "with <first names>" suffix built by `get_shout`. -/
def with_names (c : SwarmCheckin) : String :=
  "with " ++ String.intercalate ", " (c.«with».map (fun u => u.first_name))

/-- The remainder of a shout after stripping the companion suffix and
surrounding whitespace, as `get_shout` computes it. -/
def shout_remainder (s : String) (c : SwarmCheckin) : List Char :=
  rustTrim (trimEndMatches s.data (with_names c).data)

/-- The companion join rendered with friends-map mentions, as `get_shout`
computes it. -/
def mention_join (c : SwarmCheckin) (fm : FriendsMap) : String :=
  String.intercalate ", " (c.«with».map (fun u =>
    match fm.lookup u.handle with
    | some mastodon_id => "@" ++ mastodon_id
    | none => u.first_name))

section Fixtures

/-- Concrete companion from the repository's `test_get_shout_with_content`. -/
def alexU : SwarmUser := ⟨"101", "Alex", "A", "alex"⟩

/-- Concrete companion from the repository's `test_get_shout_with_content`. -/
def bobU : SwarmUser := ⟨"102", "Bob", "B", "bob"⟩

/-- Concrete location from the repository's tests. -/
def locNY : SwarmLocation := ⟨some "United States", some "New York", some "NY"⟩

/-- Concrete venue from the repository's tests. -/
def venueA : SwarmVenue := ⟨"v1", "A Place", locNY⟩

/-- Concrete checkin author. -/
def riceU : SwarmUser := ⟨"u1", "Rice", "R", "fanzeyi"⟩

/-- Checkin with a contentful shout and two companions (repository test
`test_get_shout_with_content`). -/
def ckTest : SwarmCheckin :=
  ⟨"c2", "checkin", none, some "with this is a test with Alex, Bob", some riceU, venueA,
    [alexU, bobU]⟩

/-- Checkin with a plain shout and no companions. -/
def ckPlain : SwarmCheckin :=
  ⟨"c3", "checkin", none, some "hello", some riceU, venueA, []⟩

/-- Private checkin. -/
def ckPriv : SwarmCheckin :=
  ⟨"c4", "checkin", some true, some "hello", some riceU, venueA, []⟩

/-- Non-private checkin whose annotation resolution yields none (no shout). -/
def ckNoShout : SwarmCheckin :=
  ⟨"c5", "checkin", none, none, some riceU, venueA, []⟩

/-- Checkin used as poll-feed content. -/
def ckB : SwarmCheckin :=
  ⟨"c1", "checkin", none, some "hi", none, venueA, []⟩

/-- Push environment where every lookup succeeds for user `u1` and the
destination post call fails (`post_ok = false`, failure only logged). -/
def envOk : PushEnv :=
  ⟨"sec", fun sid => if sid = "u1" then some "key1" else none,
   fun k => if k = "key1" then some ⟨"u1", "tok"⟩ else none,
   fun _ => some "https://4sq/x", false⟩

/-- Poll environment where account `a`'s feed fetch fails and account
`b`'s succeeds with one new checkin. -/
def envPoll : PollEnv :=
  ⟨fun _ => Except.ok ⟨"sid", "tok"⟩,
   fun id => if id = "a" then Except.error "boom" else Except.ok [ckB]⟩

/-- App state with polling enabled and one stored watermark. -/
def stPoll : AppStateM :=
  ⟨"sec", [], some (fun k => if k = "b" then some "w0" else none)⟩

/-- App state with polling disabled. -/
def stNoPoll : AppStateM := ⟨"sec", [], none⟩

end Fixtures

/-! ## Helper lemmas -/

theorem takeWhile_all {α} (p : α → Bool) :
    ∀ l : List α, (∀ x ∈ l, p x = true) → l.takeWhile p = l := by
  intro l h
  induction l with
  | nil => rfl
  | cons a t ih =>
    rw [List.takeWhile_cons_of_pos (h a (by simp))]
    rw [ih (fun x hx => h x (by simp [hx]))]

theorem takeWhile_append_stop {α} (p : α → Bool) (l₁ : List α) (c : α) (l₂ : List α)
    (h1 : ∀ x ∈ l₁, p x = true) (hc : p c = false) :
    (l₁ ++ c :: l₂).takeWhile p = l₁ := by
  induction l₁ with
  | nil => simp [List.takeWhile_cons, hc]
  | cons a t ih =>
    rw [List.cons_append, List.takeWhile_cons_of_pos (h1 a (by simp))]
    rw [ih (fun x hx => h1 x (by simp [hx]))]

theorem collect_results_error {α} (l : List (Except String α)) (e : String)
    (h : Except.error e ∈ l) : ∃ e', collect_results l = Except.error e' := by
  induction l with
  | nil => cases h
  | cons a t ih =>
    cases a with
    | error e0 => exact ⟨e0, rfl⟩
    | ok v =>
      rcases List.mem_cons.mp h with h' | h'
      · cases h'
      · obtain ⟨e', he⟩ := ih h'
        exact ⟨e', by simp [collect_results, he, Except.map]⟩

theorem post_checkin_fst_ok (env : PushEnv) (c : SwarmCheckin) (fm : FriendsMap) :
    (post_checkin env c fm).1 = Except.ok () := by
  unfold post_checkin
  cases hd : env.checkin_details c.id
  · rfl
  · cases hs : get_shout c fm <;> simp [hd, hs]

theorem post_checkin_skip (env : PushEnv) (c : SwarmCheckin) (fm : FriendsMap)
    (h : get_shout c fm = none) : post_checkin env c fm = (Except.ok (), []) := by
  unfold post_checkin
  cases hd : env.checkin_details c.id <;> simp [hd, h]

/-! ## Claims -/

/-- C1: for every newest-first candidate list F and watermark W,
`select_new` returns the reverse of the prefix of F strictly before the
first element whose id equals W (oldest-first); if no element of F has id
equal to W, it returns the reverse of the entire list. -/
theorem C1_select_new_front (W : String) :
    (∀ (F₁ : List SwarmCheckin) (c : SwarmCheckin) (F₂ : List SwarmCheckin),
        c.id = W → (∀ x ∈ F₁, x.id ≠ W) →
        select_new W (F₁ ++ c :: F₂) = F₁.reverse) ∧
    (∀ F : List SwarmCheckin, (∀ x ∈ F, x.id ≠ W) → select_new W F = F.reverse) := by
  constructor
  · intro F₁ c F₂ hc h1
    unfold select_new
    rw [takeWhile_append_stop _ F₁ c F₂ (fun x hx => by simp [h1 x hx]) (by simp [hc])]
  · intro F h
    unfold select_new
    rw [takeWhile_all _ F (fun x hx => by simp [h x hx])]

/-- C1 witness: with watermark "c1", the feed [ckTest, ckB, ckPlain]
(ckB carries the watermark id) reconciles to [ckTest]; a feed with no
watermark match reconciles to its full reverse. -/
theorem C1_select_new_front_witness :
    ckB.id = "c1" ∧ (∀ x ∈ [ckTest], x.id ≠ "c1") ∧
    select_new "c1" ([ckTest] ++ ckB :: [ckPlain]) = [ckTest] ∧
    (∀ x ∈ [ckTest, ckPlain], x.id ≠ "c1") ∧
    select_new "c1" [ckTest, ckPlain] = [ckPlain, ckTest] := by
  refine ⟨by decide, by decide, ?_, by decide, ?_⟩
  · exact ((C1_select_new_front "c1").1 [ckTest] ckB [ckPlain] (by decide) (by decide)).trans
      (by decide)
  · exact ((C1_select_new_front "c1").2 [ckTest, ckPlain] (by decide)).trans (by decide)

/-- C7: when the companions list is empty, `get_shout` returns the
annotation unchanged, for every friends map (in particular none exactly
when the annotation is absent). -/
theorem C7_no_companions_identity (c : SwarmCheckin) (fm : FriendsMap)
    (h : c.«with» = []) : get_shout c fm = c.shout := by
  simp [get_shout, h]

/-- C7 witness: a checkin with no companions keeps its shout, under a
non-empty friends map. -/
theorem C7_no_companions_identity_witness :
    ckPlain.«with» = [] ∧
    get_shout ckPlain [("alex", "alex@example.com")] = some "hello" :=
  ⟨by decide, (C7_no_companions_identity ckPlain [("alex", "alex@example.com")]
    (by decide)).trans (by decide)⟩

/-- C8: the location display maps city+state to "city, state"; no city
but state+country to "state, country"; country alone to the country; all
absent to none; and in particular New York / NY / United States to
"New York, NY". -/
theorem C8_location_display :
    (∀ (city state : String) (country : Option String),
        SwarmLocation.toDisplay ⟨country, some city, some state⟩ =
          some (city ++ ", " ++ state)) ∧
    (∀ state country : String,
        SwarmLocation.toDisplay ⟨some country, none, some state⟩ =
          some (state ++ ", " ++ country)) ∧
    (∀ country : String,
        SwarmLocation.toDisplay ⟨some country, none, none⟩ = some country) ∧
    SwarmLocation.toDisplay ⟨none, none, none⟩ = none ∧
    SwarmLocation.toDisplay ⟨some "United States", some "New York", some "NY"⟩ =
      some "New York, NY" := by
  refine ⟨?_, ?_, ?_, rfl, by decide⟩
  · intro city state country; rfl
  · intro state country; rfl
  · intro country; rfl

/-- C10: `update_last_checkin` changes at most the `user_id` entry of the
in-memory watermark map (other entries and the other state fields are
unchanged), and when polling is disabled (`last_checkin = none`) it
leaves the state completely unchanged. -/
theorem C10_update_last_checkin_frame (st : AppStateM) (u cid : String) :
    (st.last_checkin = none → update_last_checkin st u cid = st) ∧
    (update_last_checkin st u cid).swarm_push_secret = st.swarm_push_secret ∧
    (update_last_checkin st u cid).friends_map = st.friends_map ∧
    (∀ m, st.last_checkin = some m →
        ∃ m', (update_last_checkin st u cid).last_checkin = some m' ∧
          m' u = some cid ∧ ∀ k, k ≠ u → m' k = m k) := by
  refine ⟨?_, ?_, ?_, ?_⟩
  · intro h; simp [update_last_checkin, h]
  · cases h : st.last_checkin <;> simp [update_last_checkin, h]
  · cases h : st.last_checkin <;> simp [update_last_checkin, h]
  · intro m h
    refine ⟨fun k => if k = u then some cid else m k, by simp [update_last_checkin, h], by simp, ?_⟩
    intro k hk
    simp [hk]

/-- C10 witness: updating user "a" in a state holding a watermark for "b"
keeps "b"'s watermark and the other fields; with polling disabled the
state is returned unchanged. -/
theorem C10_update_last_checkin_frame_witness :
    (update_last_checkin stPoll "a" "c9").swarm_push_secret = stPoll.swarm_push_secret ∧
    (∃ m', (update_last_checkin stPoll "a" "c9").last_checkin = some m' ∧
      m' "a" = some "c9" ∧ ∀ k, k ≠ "a" → m' k = (fun k =>
        if k = "b" then some "w0" else none) k) ∧
    update_last_checkin stNoPoll "a" "c9" = stNoPoll := by
  refine ⟨(C10_update_last_checkin_frame stPoll "a" "c9").2.1, ?_, ?_⟩
  · exact (C10_update_last_checkin_frame stPoll "a" "c9").2.2.2
      (fun k => if k = "b" then some "w0" else none) rfl
  · exact (C10_update_last_checkin_frame stNoPoll "a" "c9").1 rfl

/-- C2: an event whose private flag is true is never posted: the push
handler issues no destination post for it, and the poll path's
`get_latest_checkins` filter removes it before reconciliation. -/
theorem C2_private_never_posted (c : SwarmCheckin) (h : c.«private» = some true) :
    (∀ (env : PushEnv) (secret : String) (fm : FriendsMap),
        (post_swarm_push env secret (some c) fm).posts = []) ∧
    (∀ l : List SwarmCheckin, c ∉ latest_checkins_filter l) := by
  constructor
  · intro env secret fm
    by_cases hsec : secret ≠ env.swarm_push_secret
    · simp [post_swarm_push, hsec]
    · simp [post_swarm_push, hsec, h]
  · intro l hl
    rw [latest_checkins_filter, List.mem_filter] at hl
    simp [h] at hl

/-- C2 witness: the concrete private checkin is neither posted by the
push handler (even with a matching secret and known user) nor kept by
the poll filter. -/
theorem C2_private_never_posted_witness :
    ckPriv.«private» = some true ∧
    (post_swarm_push envOk "sec" (some ckPriv) []).posts = [] ∧
    ckPriv ∉ latest_checkins_filter [ckPriv, ckPlain] :=
  ⟨rfl, (C2_private_never_posted ckPriv rfl).1 envOk "sec" [],
    (C2_private_never_posted ckPriv rfl).2 [ckPriv, ckPlain]⟩

/-- C5: the push webhook handler returns success for every request,
whatever the internal outcome (bad secret, unparsable payload, private
event, unknown user, failed detail fetch, failed post). -/
theorem C5_push_always_success (env : PushEnv) (secret : String)
    (parsed : Option SwarmCheckin) (fm : FriendsMap) :
    (post_swarm_push env secret parsed fm).response = Except.ok () := by
  unfold post_swarm_push
  repeat' split
  all_goals rfl

/-- C4 counterexample: a validated non-private checkin with no resolvable
annotation, whose detail fetch succeeds, is dispatched with NO post at
all on the push path — not with the claimed generic fallback status. -/
theorem C4_counterexample :
    get_shout ckNoShout [] = none ∧
    ckNoShout.«private» ≠ some true ∧
    envOk.checkin_details ckNoShout.id = some "https://4sq/x" ∧
    "sec" = envOk.swarm_push_secret ∧
    (post_swarm_push envOk "sec" (some ckNoShout) []).posts = [] := by
  decide

/-- C4 (amended): on the push path, a checkin whose annotation resolution
yields none is skipped — no destination post is issued; there is no
generic fallback status. -/
theorem C4_push_no_shout_skips (env : PushEnv) (secret : String) (c : SwarmCheckin)
    (fm : FriendsMap) (h : get_shout c fm = none) :
    (post_swarm_push env secret (some c) fm).posts = [] := by
  unfold post_swarm_push
  repeat' split
  all_goals first
    | rfl
    | simp_all [post_checkin_skip]

/-- C4 (amended) witness: the concrete no-shout checkin yields no post
through the full push handler. -/
theorem C4_push_no_shout_skips_witness :
    get_shout ckNoShout [] = none ∧
    (post_swarm_push envOk "sec" (some ckNoShout) []).posts = [] :=
  ⟨by decide, C4_push_no_shout_skips envOk "sec" ckNoShout [] (by decide)⟩

/-- C9: `post_checkin` returns Ok for every input and every external
outcome (failed detail fetch, absent annotation, failed post are logged
only); consequently, once the push handler reaches dispatch, its
watermark update always runs — also when the destination post failed. -/
theorem C9_post_checkin_infallible (env : PushEnv) (c : SwarmCheckin) (fm : FriendsMap) :
    (post_checkin env c fm).1 = Except.ok () ∧
    (∀ u user_id user,
        c.«private».getD false = false → c.user = some u →
        env.swarm_mapping u.id = some user_id → env.get_user user_id = some user →
        (post_swarm_push env env.swarm_push_secret (some c) fm).watermark =
          some (user_id, c.id)) := by
  refine ⟨post_checkin_fst_ok env c fm, ?_⟩
  intro u uid usr hp hu hm hg
  have h1 := post_checkin_fst_ok env c fm
  unfold post_swarm_push
  cases hpc : post_checkin env c fm with
  | mk r posts =>
    rw [hpc] at h1
    cases r with
    | error e => simp at h1
    | ok v => simp [hp, hu, hm, hg, hpc]

/-- C9 witness: in an environment whose destination post call fails
(`post_ok = false`), `post_checkin` still reports Ok and the handler's
watermark update still runs. -/
theorem C9_post_checkin_infallible_witness :
    envOk.post_ok = false ∧
    (post_checkin envOk ckPlain []).1 = Except.ok () ∧
    (post_swarm_push envOk envOk.swarm_push_secret (some ckPlain) []).watermark =
      some ("key1", "c3") := by
  refine ⟨rfl, (C9_post_checkin_infallible envOk ckPlain []).1, ?_⟩
  exact ((C9_post_checkin_infallible envOk ckPlain []).2 riceU "key1" ⟨"u1", "tok"⟩
    (by decide) (by decide) (by decide) (by decide)).trans (by decide)

/-- C3 counterexample: with account "a"'s feed fetch failing and account
"b" holding one genuinely new checkin, the poll iteration dispatches
nothing at all — account "b" is NOT processed, although on its own it
would have been. -/
theorem C3_counterexample :
    poll_fetch_one envPoll "a" "w" = Except.error "boom" ∧
    poll_iteration envPoll [("b", "w")] = [("b", [ckB])] ∧
    poll_iteration envPoll [("a", "w"), ("b", "w")] = [] := by
  refine ⟨rfl, by decide, by decide⟩

/-- C3 (amended): a failure to fetch one account's recent checkins aborts
the whole poll iteration — no account is reconciled or dispatched in that
iteration (the loop only logs the error and waits for the next tick). -/
theorem C3_fetch_failure_aborts_iteration (env : PollEnv)
    (wms : List (String × String))
    (h : ∃ p ∈ wms, ∃ e, poll_fetch_one env p.1 p.2 = Except.error e) :
    poll_iteration env wms = [] := by
  obtain ⟨p, hp, e, he⟩ := h
  have hmem : Except.error e ∈ wms.map (fun q => poll_fetch_one env q.1 q.2) :=
    List.mem_map.mpr ⟨p, hp, he⟩
  obtain ⟨e', he'⟩ := collect_results_error _ e hmem
  simp [poll_iteration, he']

/-- C3 (amended) witness: the concrete failing iteration from the
counterexample environment dispatches nothing. -/
theorem C3_fetch_failure_aborts_iteration_witness :
    (∃ p ∈ [("a", "w"), ("b", "w")], ∃ e,
        poll_fetch_one envPoll p.1 p.2 = Except.error e) ∧
    poll_iteration envPoll [("a", "w"), ("b", "w")] = [] :=
  ⟨⟨("a", "w"), by decide, "boom", rfl⟩,
    C3_fetch_failure_aborts_iteration envPoll [("a", "w"), ("b", "w")]
      ⟨("a", "w"), by decide, "boom", rfl⟩⟩

/-- C6: with a non-empty companions list and a present annotation, if
stripping the "with first-names" suffix and surrounding whitespace
leaves nothing, `get_shout` returns none; otherwise it returns the
remainder plus " with " plus the companion join in which friends-map
hits are rendered as mentions and misses as first names. -/
theorem C6_shout_companions (c : SwarmCheckin) (fm : FriendsMap) (s : String)
    (hw : c.«with» ≠ []) (hs : c.shout = some s) :
    (shout_remainder s c = [] → get_shout c fm = none) ∧
    (shout_remainder s c ≠ [] →
      get_shout c fm =
        some (String.mk (shout_remainder s c) ++ " with " ++ mention_join c fm)) := by
  have hne : c.«with».isEmpty = false := by
    cases hcw : c.«with»
    · exact absurd hcw hw
    · simp
  constructor <;> intro h <;>
    simp [get_shout, hs, hne, shout_remainder, with_names, mention_join, h,
      List.isEmpty_iff] at h ⊢ <;>
    simp [h]

/-- C6 witness: the repository's test checkin with shout
"with this is a test with Alex, Bob" and friends map alex ↦
alex@example.com rewrites to "with this is a test with
@alex@example.com, Bob". -/
theorem C6_shout_companions_witness :
    ckTest.«with» ≠ [] ∧
    ckTest.shout = some "with this is a test with Alex, Bob" ∧
    shout_remainder "with this is a test with Alex, Bob" ckTest ≠ [] ∧
    get_shout ckTest [("alex", "alex@example.com")] =
      some "with this is a test with @alex@example.com, Bob" := by
  refine ⟨by decide, rfl, by decide, ?_⟩
  exact ((C6_shout_companions ckTest [("alex", "alex@example.com")]
    "with this is a test with Alex, Bob" (by decide) rfl).2 (by decide)).trans (by decide)

end Swarmdon
